import Mathlib

/-!
Shallow embedding of the ccut unit-testing framework
(`src/ccut_framework.h`) and proofs about it.

Modelling conventions:
* C++ strings are Lean `String`s; `std::ostringstream` accumulation is
  string concatenation in the order of the `<<` operators.
* A test procedure (`test_func_t`, a `void()` function) is modelled by
  its observable outcome when invoked: it returns normally, throws a
  `ccut_exception`, throws an exception deriving from `std::exception`
  (observed through its `what()` text), or throws anything else.
  In the source, `class ccut_exception` has no base class, so a
  `ccut_exception` is *not* a `std::exception`; the two are distinct
  constructors of `TestResult`.
* `std::map<std::string, test_func_t>` is modelled as an association
  list sorted strictly by key, and `std::map::emplace` as sorted
  insertion that leaves the map unchanged when the key is present.
  The `<` on `String` (Mathlib's linear order, lexicographic) models
  `std::less<std::string>`.
* The `long double` arithmetic of `assert_almost_equal` is modelled by
  exact rational arithmetic (`ℚ`), following the specification's
  reading of the operands as real numbers.
* Functions that may throw return `Option ccut_exception`
  (`none` = normal return) or a `TestResult` describing how the call
  completed or escaped.
-/

namespace ccut_framework

/-- The `colors` enum: terminal formatting codes. -/
inductive colors
  | none
  | bold
  | red
  | green
  | yellow
deriving DecidableEq

/-- Numeric value of each enumerator (`static_cast<int>` in `ansi`). -/
def colors.toInt : colors → Int
  | colors.none => 0
  | colors.bold => 1
  | colors.red => 31
  | colors.green => 32
  | colors.yellow => 33

/-- The `ansi` function: `"\033["`, then the codes in decimal separated
by `';'`, then `'m'`.  The source `assert`s the list is nonempty; the
model is total and is only ever applied to nonempty lists. -/
def ansi (codes : List colors) : String :=
  "\x1b[" ++ String.intercalate ";" (codes.map (fun c => toString c.toInt)) ++ "m"

/-- The `ccut_exception` class: a reason and a source line number. -/
structure ccut_exception where
  reason : String
  line : Int
deriving DecidableEq

/-- `ccut_exception::what`: `"Line " << bold << line << none << ": " << reason`. -/
def ccut_exception.what (ce : ccut_exception) : String :=
  "Line " ++ ansi [colors.bold] ++ toString ce.line ++ ansi [colors.none] ++ ": " ++ ce.reason

/-- Observable outcome of invoking a test procedure (or any `void` call):
normal return, a thrown `ccut_exception`, a thrown `std::exception`
(with its `what()` text), or a thrown object of any other type. -/
inductive TestResult
  | ok
  | ccutExc (ce : ccut_exception)
  | stdExc (w : String)
  | other
deriving DecidableEq

/-- `std::map<std::string, test_func_t>::emplace` on the sorted
association-list representation of the map: insert the pair at its
ordered position unless the key is already present, in which case the
map is left unchanged. -/
def emplace : List (String × TestResult) → String → TestResult → List (String × TestResult)
  | [], k, v => [(k, v)]
  | (k0, v0) :: rest, k, v =>
    if k < k0 then (k, v) :: (k0, v0) :: rest
    else if k = k0 then (k0, v0) :: rest
    else (k0, v0) :: emplace rest k v

/-- Key list of the registry, i.e. the order `test_main` iterates it in. -/
def keys (m : List (String × TestResult)) : List String := m.map Prod.fst

/-- The `RegisterTest` constructor: `tests.emplace(name, func)`. -/
def RegisterTest (m : List (String × TestResult)) (name : String) (func : TestResult) :
    List (String × TestResult) := emplace m name func

/-- The `tests` registry built by the registration side effects of a
sequence of `TEST(...)` declarations, applied in the order the
declarations' static initializers run, starting from the empty map. -/
def registerAll (l : List (String × TestResult)) : List (String × TestResult) :=
  l.foldl (fun m t => RegisterTest m t.1 t.2) []

/-- One iteration of the `test_main` loop for a test named `name` whose
procedure has outcome `proc`: the text printed for this test, and the
failure record pushed onto `failures` (if any). -/
def runTest (name : String) (proc : TestResult) : String × Option (String × String) :=
  match proc with
  | TestResult.ok =>
    ("Running test \"" ++ name ++ "\" . . . " ++ ansi [colors.green] ++ "PASS\n"
        ++ ansi [colors.none],
      Option.none)
  | TestResult.ccutExc ce =>
    ("Running test \"" ++ name ++ "\" . . . " ++ ansi [colors.red] ++ "FAIL\n"
        ++ ansi [colors.none],
      Option.some (name, ce.what))
  | TestResult.stdExc w =>
    ("Running test \"" ++ name ++ "\" . . . " ++ ansi [colors.yellow] ++ "EXCEPTION\n"
        ++ ansi [colors.none],
      Option.some (name, "Unexpected exception: " ++ w))
  | TestResult.other =>
    ("Running test \"" ++ name ++ "\" . . . " ++ ansi [colors.red, colors.bold]
        ++ "UNRECOGNIZED EXCEPTION\n" ++ ansi [colors.none],
      Option.some (name, "Totally unknown error was thrown!"))

/-- Concatenation of a list of output fragments, in order. -/
def joinAll : List String → String
  | [] => ""
  | s :: rest => s ++ joinAll rest

/-- The `for (const auto& test : tests)` loop of `test_main`,
accumulating printed output and the `failures` vector. -/
def runLoop : List (String × TestResult) → String × List (String × String) →
    String × List (String × String)
  | [], acc => acc
  | t :: rest, acc =>
    runLoop rest
      (acc.1 ++ (runTest t.1 t.2).1, acc.2 ++ (runTest t.1 t.2).2.toList)

/-- `test_main`: run every registered test, then print the failure
section (when any failures exist) and the final tally; return 0.
The registry is passed as the sorted association list it is iterated as. -/
def test_main (tests : List (String × TestResult)) : String × Int :=
  let res := runLoop tests ("", [])
  (res.1
    ++ (if res.2.length ≠ 0 then
          "\n- - - Failures - - -\n"
            ++ joinAll (res.2.map (fun fail => " -> [" ++ fail.1 ++ "] " ++ fail.2 ++ "\n"))
        else "")
    ++ "\n"
    ++ ("Total passed: [" ++ toString (tests.length - res.2.length) ++ " / "
          ++ toString tests.length ++ "]\n"),
    0)

/-- `assert_true`: throws unless `expr` holds. -/
def assert_true (expr : Bool) (str : String) (line : Int) : Option ccut_exception :=
  if !expr then
    Option.some ⟨"Expected TRUE, but was FALSE: \"" ++ str ++ "\"", line⟩
  else
    Option.none

/-- `assert_false`: throws unless `expr` is false. -/
def assert_false (expr : Bool) (str : String) (line : Int) : Option ccut_exception :=
  if expr then
    Option.some ⟨"Expected FALSE, but was TRUE: \"" ++ str ++ "\"", line⟩
  else
    Option.none

/-- `assert_equal`: throws unless `lhs == rhs`.  The template's
`operator==` at the instantiating types is passed as `beq`. -/
def assert_equal {α β : Type} (beq : α → β → Bool) (lhs : α) (rhs : β)
    (lhs_str rhs_str : String) (line : Int) : Option ccut_exception :=
  if !(beq lhs rhs) then
    Option.some ⟨"Expected EQUAL, but was NOT EQUAL: [" ++ lhs_str ++ "]"
        ++ " and [" ++ rhs_str ++ "]", line⟩
  else
    Option.none

/-- `assert_unequal`: throws unless `lhs != rhs`.  The `operator!=` used
by the source is modelled as the Boolean negation of `operator==`, its
standard meaning at the value types the framework is instantiated at. -/
def assert_unequal {α β : Type} (beq : α → β → Bool) (lhs : α) (rhs : β)
    (lhs_str rhs_str : String) (line : Int) : Option ccut_exception :=
  if !(!(beq lhs rhs)) then
    Option.some ⟨"Expected UNEQUAL, but was NOT UNEQUAL: [" ++ lhs_str ++ "]"
        ++ " and [" ++ rhs_str ++ "]", line⟩
  else
    Option.none

/-- `assert_almost_equal`: throws unless `|lhs - rhs| <= 0.0001`.  The
`long double` operands and the literal tolerance `0.0001` are modelled
by exact rationals. -/
def assert_almost_equal (lhs rhs : ℚ) (lhs_str rhs_str : String) (line : Int) :
    Option ccut_exception :=
  if |lhs - rhs| > 1 / 10000 then
    Option.some ⟨"Expected ALMOST EQUAL, but was NOT ALMOST EQUAL: [" ++ lhs_str ++ "]"
        ++ " and [" ++ rhs_str ++ "]", line⟩
  else
    Option.none

/-- The `CCUT_DETERMINE_THROW` macro: invoke the call; only a thrown
`std::exception` is caught (setting the flag).  A `ccut_exception` or an
object of any other type escapes the `try` block uncaught. -/
def ccut_determine_throw : TestResult → Except TestResult Bool
  | TestResult.ok => Except.ok false
  | TestResult.stdExc _ => Except.ok true
  | TestResult.ccutExc ce => Except.error (TestResult.ccutExc ce)
  | TestResult.other => Except.error TestResult.other

/-- `CCUT_ASSERT_EXCEPTION_IMPL` (the body of `ASSERT_EXCEPTION`):
outcome of the assertion itself given the call's outcome `r`. -/
def CCUT_ASSERT_EXCEPTION_IMPL (r : TestResult) (func_call : String) (line : Int) :
    TestResult :=
  match ccut_determine_throw r with
  | Except.error esc => esc
  | Except.ok threw =>
    if !threw then
      TestResult.ccutExc
        ⟨"Expected EXCEPTION, but got NO EXCEPTION: \"" ++ func_call ++ "\"", line⟩
    else
      TestResult.ok

/-- `CCUT_ASSERT_NO_EXCEPTION_IMPL` (the body of `ASSERT_NO_EXCEPTION`):
outcome of the assertion itself given the call's outcome `r`. -/
def CCUT_ASSERT_NO_EXCEPTION_IMPL (r : TestResult) (func_call : String) (line : Int) :
    TestResult :=
  match ccut_determine_throw r with
  | Except.error esc => esc
  | Except.ok threw =>
    if threw then
      TestResult.ccutExc
        ⟨"Expected NO EXCEPTION, but got EXCEPTION: \"" ++ func_call ++ "\"", line⟩
    else
      TestResult.ok

/-- Membership of a key in the registry after an `emplace`. -/
theorem mem_keys_emplace (m : List (String × TestResult)) (k a : String) (v : TestResult) :
    a ∈ keys (emplace m k v) ↔ a = k ∨ a ∈ keys m := by
  induction m with
  | nil => simp [emplace, keys]
  | cons t rest ih =>
    obtain ⟨k0, v0⟩ := t
    by_cases h1 : k < k0
    · simp [emplace, h1, keys]
    · by_cases h2 : k = k0
      · subst h2
        simp [emplace, h1, keys]
      · simp only [emplace, if_neg h1, if_neg h2, keys, List.map_cons, List.mem_cons] at *
        rw [ih]
        tauto

/-- `emplace` preserves strict sortedness of the key list. -/
theorem sorted_keys_emplace (m : List (String × TestResult)) (k : String) (v : TestResult)
    (hs : List.Sorted (· < ·) (keys m)) :
    List.Sorted (· < ·) (keys (emplace m k v)) := by
  induction m with
  | nil => simp [emplace, keys]
  | cons t rest ih =>
    obtain ⟨k0, v0⟩ := t
    simp only [keys, List.map_cons, List.sorted_cons] at hs
    obtain ⟨h0, hrest⟩ := hs
    by_cases h1 : k < k0
    · simp only [emplace, if_pos h1, keys, List.map_cons, List.sorted_cons]
      refine ⟨?_, ?_, hrest⟩
      · intro b hb
        rcases List.mem_cons.mp hb with rfl | hb'
        · exact h1
        · exact lt_trans h1 (h0 b hb')
      · exact h0
    · by_cases h2 : k = k0
      · simp only [emplace, if_neg h1, if_pos h2, keys, List.map_cons, List.sorted_cons]
        exact ⟨h0, hrest⟩
      · have hk0 : k0 < k := ((lt_trichotomy k k0).resolve_left h1).resolve_left h2
        simp only [emplace, if_neg h1, if_neg h2, keys, List.map_cons, List.sorted_cons]
        constructor
        · intro b hb
          rcases (mem_keys_emplace rest k b v).mp hb with rfl | hb'
          · exact hk0
          · exact h0 b hb'
        · exact ih hrest

/-- On a sorted registry, `emplace` of an already-present key is the
identity. -/
theorem emplace_mem_eq (m : List (String × TestResult)) (k : String) (v : TestResult)
    (hs : List.Sorted (· < ·) (keys m)) (hk : k ∈ keys m) : emplace m k v = m := by
  induction m with
  | nil => simp [keys] at hk
  | cons t rest ih =>
    obtain ⟨k0, v0⟩ := t
    simp only [keys, List.map_cons, List.sorted_cons] at hs
    obtain ⟨h0, hrest⟩ := hs
    simp only [keys, List.map_cons, List.mem_cons] at hk
    rcases hk with rfl | hk'
    · simp [emplace, lt_irrefl]
    · have hk0 : k0 < k := h0 k hk'
      have h1 : ¬ k < k0 := lt_asymm hk0
      have h2 : k ≠ k0 := ne_of_gt hk0
      simp [emplace, h1, h2, ih hrest hk']

/-- `emplace` of a fresh key is, up to ordering, just adding the pair. -/
theorem emplace_perm (m : List (String × TestResult)) (k : String) (v : TestResult)
    (hk : k ∉ keys m) : (emplace m k v).Perm ((k, v) :: m) := by
  induction m with
  | nil => simp [emplace]
  | cons t rest ih =>
    obtain ⟨k0, v0⟩ := t
    simp only [keys, List.map_cons, List.mem_cons, not_or] at hk
    by_cases h1 : k < k0
    · simp [emplace, h1]
    · simp only [emplace, if_neg h1, if_neg hk.1]
      exact ((ih (by simpa [keys] using hk.2)).cons _).trans (List.Perm.swap _ _ _)

/-- Folding registrations over a sorted registry keeps it sorted. -/
theorem sorted_keys_registerFold (l : List (String × TestResult))
    (m : List (String × TestResult)) (hs : List.Sorted (· < ·) (keys m)) :
    List.Sorted (· < ·) (keys (l.foldl (fun acc t => RegisterTest acc t.1 t.2) m)) := by
  induction l generalizing m with
  | nil => exact hs
  | cons t rest ih =>
    exact ih _ (sorted_keys_emplace m t.1 t.2 hs)

/-- The registry built from any declaration sequence has its key list
sorted strictly lexicographically. -/
theorem sorted_keys_registerAll (l : List (String × TestResult)) :
    List.Sorted (· < ·) (keys (registerAll l)) :=
  sorted_keys_registerFold l [] (by simp [keys])

/-- With no duplicate names among the pending registrations or the
accumulated registry, folding the registrations in yields a permutation
of simply appending them. -/
theorem registerFold_perm (l : List (String × TestResult))
    (m : List (String × TestResult))
    (hnd : (keys m ++ l.map Prod.fst).Nodup) :
    (l.foldl (fun acc t => RegisterTest acc t.1 t.2) m).Perm (m ++ l) := by
  induction l generalizing m with
  | nil => simp
  | cons t rest ih =>
    obtain ⟨k, v⟩ := t
    have hkm : k ∉ keys m := by
      intro hmem
      exact (List.nodup_append.mp hnd).2.2 hmem (by simp)
    have hperm1 : (emplace m k v).Perm ((k, v) :: m) := emplace_perm m k v hkm
    have hkeysperm : (keys (emplace m k v)).Perm (k :: keys m) := by
      simpa [keys] using hperm1.map Prod.fst
    have hnd' : (keys (emplace m k v) ++ rest.map Prod.fst).Nodup := by
      refine ((hkeysperm.append_right (rest.map Prod.fst)).nodup_iff).mpr ?_
      have hshift : (keys m ++ (k :: rest.map Prod.fst)).Nodup := by
        simpa using hnd
      have hp : ((k :: keys m) ++ rest.map Prod.fst).Perm
          (keys m ++ (k :: rest.map Prod.fst)) := by
        simpa using List.perm_middle.symm
      exact (hp.nodup_iff).mpr hshift
    have step := ih (emplace m k v) hnd'
    refine step.trans ?_
    refine (hperm1.append_right rest).trans ?_
    simpa using (List.perm_middle).symm

/-- With distinct test names, the registry holds exactly the declared
tests. -/
theorem registerAll_perm (l : List (String × TestResult))
    (hnd : (l.map Prod.fst).Nodup) : (registerAll l).Perm l := by
  have := registerFold_perm l [] (by simpa [keys] using hnd)
  simpa [registerAll] using this

/-- The `test_main` loop processes every registered test in order,
concatenating each test's printed output and appending each test's
failure record. -/
theorem runLoop_processes_all (l : List (String × TestResult)) (out : String)
    (fs : List (String × String)) :
    runLoop l (out, fs) =
      (out ++ joinAll (l.map (fun t => (runTest t.1 t.2).1)),
       fs ++ l.filterMap (fun t => (runTest t.1 t.2).2)) := by
  induction l generalizing out fs with
  | nil => simp [runLoop, joinAll]
  | cons t rest ih =>
    simp only [runLoop, List.map_cons, joinAll, List.filterMap_cons]
    rw [ih]
    cases h : (runTest t.1 t.2).2 <;>
      simp [h, String.append_assoc, List.append_assoc]

/-- C1: the runner classifies each test's outcome by the first matching
category: a normal return prints PASS (green) and appends no record; a
`ccut_exception` prints FAIL (red) and appends the rendered message
`Line <line>: <reason>` with the line number bolded; a `std::exception`
prints EXCEPTION (yellow) and appends `Unexpected exception: ` followed
by its description; anything else prints bold red UNRECOGNIZED EXCEPTION
and appends exactly `Totally unknown error was thrown!`. -/
theorem runner_classifies_outcomes (name reason w : String) (line : Int) :
    runTest name TestResult.ok =
      ("Running test \"" ++ name ++ "\" . . . " ++ "\x1b[32m" ++ "PASS\n" ++ "\x1b[0m",
        Option.none)
    ∧ runTest name (TestResult.ccutExc ⟨reason, line⟩) =
      ("Running test \"" ++ name ++ "\" . . . " ++ "\x1b[31m" ++ "FAIL\n" ++ "\x1b[0m",
        Option.some (name,
          "Line " ++ "\x1b[1m" ++ toString line ++ "\x1b[0m" ++ ": " ++ reason))
    ∧ runTest name (TestResult.stdExc w) =
      ("Running test \"" ++ name ++ "\" . . . " ++ "\x1b[33m" ++ "EXCEPTION\n" ++ "\x1b[0m",
        Option.some (name, "Unexpected exception: " ++ w))
    ∧ runTest name TestResult.other =
      ("Running test \"" ++ name ++ "\" . . . " ++ "\x1b[31;1m"
          ++ "UNRECOGNIZED EXCEPTION\n" ++ "\x1b[0m",
        Option.some (name, "Totally unknown error was thrown!")) :=
  ⟨rfl, rfl, rfl, rfl⟩

/-- C2: the runner never aborts: for every registry, whatever each test
throws, the output of `test_main` is the concatenation of a per-test
fragment for every registered test (in order), each opening with that
test's `Running test` header, followed by the failure section and the
final report. -/
theorem runner_never_aborts (tests : List (String × TestResult)) :
    ((test_main tests).1 =
        joinAll (tests.map (fun t => (runTest t.1 t.2).1))
          ++ (if (tests.filterMap (fun t => (runTest t.1 t.2).2)).length ≠ 0 then
                "\n- - - Failures - - -\n"
                  ++ joinAll ((tests.filterMap (fun t => (runTest t.1 t.2).2)).map
                       (fun fail => " -> [" ++ fail.1 ++ "] " ++ fail.2 ++ "\n"))
              else "")
          ++ "\n"
          ++ ("Total passed: [" ++ toString (tests.length
                - (tests.filterMap (fun t => (runTest t.1 t.2).2)).length) ++ " / "
                ++ toString tests.length ++ "]\n"))
    ∧ ∀ t ∈ tests, ∃ rest,
        (runTest t.1 t.2).1 = "Running test \"" ++ t.1 ++ "\" . . . " ++ rest := by
  constructor
  · simp only [test_main, runLoop_processes_all, String.empty_append, List.nil_append]
  · intro t ht
    cases t.2 with
    | ok =>
      exact ⟨ansi [colors.green] ++ ("PASS\n" ++ ansi [colors.none]),
        by simp [runTest, String.append_assoc]⟩
    | ccutExc ce =>
      exact ⟨ansi [colors.red] ++ ("FAIL\n" ++ ansi [colors.none]),
        by simp [runTest, String.append_assoc]⟩
    | stdExc w =>
      exact ⟨ansi [colors.yellow] ++ ("EXCEPTION\n" ++ ansi [colors.none]),
        by simp [runTest, String.append_assoc]⟩
    | other =>
      exact ⟨ansi [colors.red, colors.bold]
          ++ ("UNRECOGNIZED EXCEPTION\n" ++ ansi [colors.none]),
        by simp [runTest, String.append_assoc]⟩

/-- C3: after all tests have run, if any failure records exist they are
listed as ` -> [test_name] message` in execution order under the
failures banner; a blank line and `Total passed: [<passed> / <total>]`
always follow, with `total` the registry size and `passed` equal to
`total` minus the number of failure records; with zero tests the entire
output is exactly a blank line followed by `Total passed: [0 / 0]`. -/
theorem final_report_format (tests : List (String × TestResult)) :
    ((test_main tests).1 =
        joinAll (tests.map (fun t => (runTest t.1 t.2).1))
          ++ (if (tests.filterMap (fun t => (runTest t.1 t.2).2)).length ≠ 0 then
                "\n- - - Failures - - -\n"
                  ++ joinAll ((tests.filterMap (fun t => (runTest t.1 t.2).2)).map
                       (fun fail => " -> [" ++ fail.1 ++ "] " ++ fail.2 ++ "\n"))
              else "")
          ++ "\n"
          ++ ("Total passed: [" ++ toString (tests.length
                - (tests.filterMap (fun t => (runTest t.1 t.2).2)).length) ++ " / "
                ++ toString tests.length ++ "]\n"))
    ∧ test_main [] = ("\nTotal passed: [0 / 0]\n", 0) := by
  constructor
  · simp only [test_main, runLoop_processes_all, String.empty_append, List.nil_append]
  · rfl

/-- C4: the registry's iteration order is strictly lexicographic by test
name, and with distinct names the registry built from any declaration
order is the same: registering a permutation of the same tests yields
an identical registry. -/
theorem lexicographic_iteration (l1 l2 : List (String × TestResult))
    (hperm : l1.Perm l2) (hnd : (l1.map Prod.fst).Nodup) :
    List.Sorted (· < ·) (keys (registerAll l1)) ∧ registerAll l1 = registerAll l2 := by
  have hnd2 : (l2.map Prod.fst).Nodup := ((hperm.map Prod.fst).nodup_iff).mp hnd
  have hp1 : (registerAll l1).Perm l1 := registerAll_perm l1 hnd
  have hp2 : (registerAll l2).Perm l2 := registerAll_perm l2 hnd2
  have hs1 := sorted_keys_registerAll l1
  have hs2 := sorted_keys_registerAll l2
  refine ⟨hs1, ?_⟩
  haveI : IsAntisymm (String × TestResult) (fun a b => a.1 < b.1) :=
    ⟨fun a b ha hb => absurd ha (lt_asymm hb)⟩
  exact List.eq_of_perm_of_sorted (hp1.trans (hperm.trans hp2.symm))
    ((List.pairwise_map).mp hs1) ((List.pairwise_map).mp hs2)

/-- C4 witness: the two declaration orders of tests `a` and `b` build
the same sorted registry. -/
theorem lexicographic_iteration_witness :
    ([("b", TestResult.ok), ("a", TestResult.ok)] : List (String × TestResult)).Perm
        [("a", TestResult.ok), ("b", TestResult.ok)]
    ∧ ([("b", TestResult.ok), ("a", TestResult.ok)].map Prod.fst).Nodup
    ∧ (List.Sorted (· < ·) (keys (registerAll [("b", TestResult.ok), ("a", TestResult.ok)]))
        ∧ registerAll [("b", TestResult.ok), ("a", TestResult.ok)]
          = registerAll [("a", TestResult.ok), ("b", TestResult.ok)]) :=
  ⟨List.Perm.swap _ _ _, by decide,
    lexicographic_iteration _ _ (List.Perm.swap _ _ _) (by decide)⟩

/-- C5: `assert_almost_equal x y` does not throw iff `|x - y| ≤ 0.0001`
(fixed absolute tolerance); at `|x - y| = 0.0001` it does not throw, and
at `|x - y| = 0.00010001` it throws. -/
theorem almost_equal_tolerance (x y : ℚ) (ls rs : String) (line : Int) :
    (assert_almost_equal x y ls rs line = Option.none ↔ |x - y| ≤ 1 / 10000)
    ∧ assert_almost_equal (1 / 10000) 0 ls rs line = Option.none
    ∧ (assert_almost_equal (10001 / 100000000) 0 ls rs line).isSome = true := by
  refine ⟨?_, ?_, ?_⟩
  · simp [assert_almost_equal]
  · simp only [assert_almost_equal]
    norm_num [abs_le]
  · simp only [assert_almost_equal]
    norm_num [lt_abs]

/-- C6: `ASSERT_EXCEPTION(f)` does not throw iff `f` throws a
`std::exception`; `ASSERT_NO_EXCEPTION(f)` does not throw iff `f`
throws nothing; thrown objects outside the `std::exception` hierarchy
(a `ccut_exception` or anything else) are not intercepted by either
assertion and propagate out of it. -/
theorem exception_assertions_semantics (r : TestResult) (s : String) (line : Int) :
    (CCUT_ASSERT_EXCEPTION_IMPL r s line = TestResult.ok ↔ ∃ w, r = TestResult.stdExc w)
    ∧ (CCUT_ASSERT_NO_EXCEPTION_IMPL r s line = TestResult.ok ↔ r = TestResult.ok)
    ∧ (∀ ce, CCUT_ASSERT_EXCEPTION_IMPL (TestResult.ccutExc ce) s line
        = TestResult.ccutExc ce)
    ∧ (∀ ce, CCUT_ASSERT_NO_EXCEPTION_IMPL (TestResult.ccutExc ce) s line
        = TestResult.ccutExc ce)
    ∧ CCUT_ASSERT_EXCEPTION_IMPL TestResult.other s line = TestResult.other
    ∧ CCUT_ASSERT_NO_EXCEPTION_IMPL TestResult.other s line = TestResult.other := by
  refine ⟨?_, ?_, fun ce => rfl, fun ce => rfl, rfl, rfl⟩
  · cases r <;> simp [CCUT_ASSERT_EXCEPTION_IMPL, ccut_determine_throw]
  · cases r <;> simp [CCUT_ASSERT_NO_EXCEPTION_IMPL, ccut_determine_throw]

/-- C7: for a value whose equality is reflexive (`a == a` holds),
`assert_equal a a` never throws and `assert_unequal a a` always throws
a `ccut_exception`. -/
theorem reflexive_equal_unequal {α : Type} (beq : α → α → Bool) (a : α)
    (ls rs : String) (line : Int) (h : beq a a = true) :
    assert_equal beq a a ls rs line = Option.none
    ∧ (assert_unequal beq a a ls rs line).isSome = true := by
  constructor
  · simp [assert_equal, h]
  · simp [assert_unequal, h]

/-- C7 witness: concrete instance at `a = 3 : Nat` with `Nat.beq`. -/
theorem reflexive_equal_unequal_witness :
    Nat.beq 3 3 = true
    ∧ (assert_equal Nat.beq 3 3 "3" "3" 1 = Option.none
        ∧ (assert_unequal Nat.beq 3 3 "3" "3" 2).isSome = true) :=
  ⟨by decide, reflexive_equal_unequal Nat.beq 3 "3" "3" 1 (by decide)⟩

/-- C8: `test_main` returns status code 0 for every registry and every
combination of test outcomes; pass/fail information never reaches the
returned status. -/
theorem runner_returns_zero (tests : List (String × TestResult)) :
    (test_main tests).2 = 0 := rfl

/-- C9: registering a test whose name already exists in the registry
leaves the registry completely unchanged: the earlier procedure is
retained, the later one discarded, the size does not grow. -/
theorem duplicate_registration_ignored (l : List (String × TestResult))
    (k : String) (v : TestResult) (h : k ∈ keys (registerAll l)) :
    RegisterTest (registerAll l) k v = registerAll l :=
  emplace_mem_eq (registerAll l) k v (sorted_keys_registerAll l) h

/-- C9 witness: re-registering `alpha` with a different procedure
leaves the one-test registry untouched. -/
theorem duplicate_registration_ignored_witness :
    "alpha" ∈ keys (registerAll [("alpha", TestResult.ok)])
    ∧ RegisterTest (registerAll [("alpha", TestResult.ok)]) "alpha" TestResult.other
        = registerAll [("alpha", TestResult.ok)] :=
  ⟨by decide, duplicate_registration_ignored _ _ _ (by decide)⟩

/-- C10: `ccut_exception` does not derive from `std::exception`, so a
`ccut_exception` thrown by the call under `ASSERT_EXCEPTION` or
`ASSERT_NO_EXCEPTION` is not intercepted there: it propagates out of
the assertion unchanged (carrying the inner call site's line number),
and the runner classifies the enclosing test as FAIL, recording the
propagated signal's own rendered message. -/
theorem failure_signal_not_intercepted (ce : ccut_exception) (s name : String) (line : Int) :
    (∀ w, TestResult.ccutExc ce ≠ TestResult.stdExc w)
    ∧ CCUT_ASSERT_EXCEPTION_IMPL (TestResult.ccutExc ce) s line = TestResult.ccutExc ce
    ∧ CCUT_ASSERT_NO_EXCEPTION_IMPL (TestResult.ccutExc ce) s line = TestResult.ccutExc ce
    ∧ runTest name (TestResult.ccutExc ce) =
        ("Running test \"" ++ name ++ "\" . . . " ++ "\x1b[31m" ++ "FAIL\n" ++ "\x1b[0m",
          Option.some (name, ce.what)) := by
  refine ⟨fun w h => ?_, rfl, rfl, rfl⟩
  cases h

end ccut_framework
